import Mathlib

/-!
Verification of the Inkly game core (models.py, templates_static/game_manager.py).

The Python source is embedded shallowly:
- machine integers are `Int`; Python floats that only carry exactly
  representable values in the inputs we reason about are embedded as `Rat`;
- `datetime.now()` is an explicit `now : Int` parameter;
- `random.choice` / `random.random() > 0.7` are explicit oracle parameters
  (an index into the pool, a coin for the branch);
- `uuid.uuid4()` is an explicit fresh-string parameter;
- Python object references are made explicit through a heap
  `Nat -> Player`, since sessions and the players dict alias the same
  mutable Player objects;
- dicts are insertion-ordered association lists (update in place keeps the
  position of a key, a new key is appended), matching CPython semantics;
- `raise ValueError` is an `Except String` error result.
-/

namespace Inkly

/-- Embeds models.py class Difficulty. -/
inductive Difficulty where
  | easy
  | medium
  | hard
deriving DecidableEq, Repr

/-- Embeds models.py class BrushType. -/
inductive BrushType where
  | normal
  | neon
  | spray
  | marker
  | sparkle
deriving DecidableEq, Repr

/-- Embeds models.py dataclass Prompt. -/
structure Prompt where
  text : String
  difficulty : Difficulty
  time_limit : Int := 20
deriving DecidableEq, Repr

/-- Embeds models.py dataclass Player. `last_played` is an abstract clock value. -/
structure Player where
  id : String
  name : String
  level : Int := 1
  xp : Int := 0
  streak : Int := 0
  total_drawings : Int := 0
  correct_guesses : Int := 0
  brushes_unlocked : List BrushType := [BrushType.normal]
  achievements : List String := []
  last_played : Option Int := none
deriving DecidableEq, Repr

/-- Embeds Player.add_xp: adds the points, checks the threshold once,
on a level up subtracts the old threshold and increments the level. -/
def Player.add_xp (p : Player) (points : Int) : Player × Bool :=
  let xp := p.xp + points
  let xp_needed := p.level * 100
  if xp_needed ≤ xp then
    ({ p with xp := xp - xp_needed, level := p.level + 1 }, true)
  else
    ({ p with xp := xp }, false)

/-- Embeds Player.unlock_brush: append the brush if it is not yet unlocked. -/
def Player.unlock_brush (p : Player) (brush : BrushType) : Player :=
  if brush ∈ p.brushes_unlocked then p
  else { p with brushes_unlocked := p.brushes_unlocked ++ [brush] }

/-- Embeds Player.add_achievement: append the id if it is not yet recorded. -/
def Player.add_achievement (p : Player) (achievement : String) : Player :=
  if achievement ∈ p.achievements then p
  else { p with achievements := p.achievements ++ [achievement] }

/-- Embeds models.py dataclass DrawingSession. The Python field `player`
holds a reference to a Player object shared with the players dict, so it is
embedded as a heap reference `playerRef`. -/
structure DrawingSession where
  session_id : String
  playerRef : Nat
  prompt : Prompt
  started_at : Int
  drawing_data : Option String := none
  ai_guesses : List String := []
  correct : Bool := false
  time_spent : Rat := 0
  score : Int := 0
deriving DecidableEq, Repr

/-- Embeds the ai_result dict consumed by complete_session: the keys
guesses, correct and confidence read with ai_result.get. -/
structure AIResult where
  guesses : List String := []
  correct : Bool := false
  confidence : Int := 0
deriving DecidableEq, Repr

/-- Embeds Python int(x) on a real value: truncation toward zero. -/
def ratTrunc (q : Rat) : Int :=
  if 0 ≤ q then ⌊q⌋ else ⌈q⌉

/-- Embeds Python round(x) on a real value: nearest integer, ties to even. -/
def pyRound (q : Rat) : Int :=
  if q - ⌊q⌋ = 1 / 2 then (if Even ⌊q⌋ then ⌊q⌋ else ⌊q⌋ + 1) else round q

/-- Embeds Python round(x, 1): one decimal digit, via pyRound. -/
def roundTo1 (q : Rat) : Rat :=
  (pyRound (q * 10) : Rat) / 10

/-- Embeds models.py PromptGenerator.EASY_PROMPTS. -/
def EASY_PROMPTS : List String :=
  ["cachorro", "gato", "casa", "árvore", "sol", "lua", "estrela",
   "coração", "flor", "carro", "bicicleta", "pássaro", "peixe"]

/-- Embeds models.py PromptGenerator.MEDIUM_PROMPTS. -/
def MEDIUM_PROMPTS : List String :=
  ["dragão", "robô", "castelo", "foguete", "dinossauro", "sereia",
   "unicórnio", "pirata", "ninja", "bruxa", "vampiro", "zumbi"]

/-- Embeds models.py PromptGenerator.HARD_PROMPTS. -/
def HARD_PROMPTS : List String :=
  ["felicidade", "liberdade", "solidão", "caos", "harmonia",
   "tempo", "memória", "sonho", "impossível", "infinito"]

/-- Embeds models.py PromptGenerator.SURPRISE_PROMPTS. -/
def SURPRISE_PROMPTS : List String :=
  ["um gato astronauta", "pizza voadora", "robô jardineiro",
   "dragão dormindo", "árvore de doces", "nuvem com pernas",
   "peixe-guitarra", "cachorro-unicórnio", "casa flutuante"]

/-- Embeds random.choice on a nonempty pool: the random draw is the
oracle index `idx`, reduced modulo the pool size. -/
def choice : List String → Nat → String
  | [], _ => ""
  | a :: as, idx => (a :: as).get ⟨idx % (a :: as).length, Nat.mod_lt _ (Nat.succ_pos _)⟩

/-- Embeds PromptGenerator.generate. The test random.random() > 0.7 is the
oracle `surpriseCoin`; the pool draw is the oracle `idx`. -/
def PromptGenerator.generate (difficulty : Difficulty) (surprise : Bool)
    (surpriseCoin : Bool) (idx : Nat) : Prompt :=
  if surprise && surpriseCoin then
    { text := choice SURPRISE_PROMPTS idx, difficulty := Difficulty.medium, time_limit := 30 }
  else
    match difficulty with
    | Difficulty.easy =>
        { text := choice EASY_PROMPTS idx, difficulty := Difficulty.easy, time_limit := 20 }
    | Difficulty.medium =>
        { text := choice MEDIUM_PROMPTS idx, difficulty := Difficulty.medium, time_limit := 25 }
    | Difficulty.hard =>
        { text := choice HARD_PROMPTS idx, difficulty := Difficulty.hard, time_limit := 30 }

/-- Embeds one entry of models.py AchievementSystem.ACHIEVEMENTS. -/
structure AchievementInfo where
  name : String
  description : String
  xp : Int
deriving DecidableEq, Repr

/-- Embeds models.py AchievementSystem.ACHIEVEMENTS. -/
def ACHIEVEMENTS (id : String) : AchievementInfo :=
  if id = "first_draw" then ⟨"Primeiro Traço", "Complete seu primeiro desenho", 50⟩
  else if id = "speed_demon" then ⟨"Demônio da Velocidade", "Complete um desenho em menos de 5 segundos", 100⟩
  else if id = "perfectionist" then ⟨"Perfeccionista", "Acerte 10 desenhos seguidos", 200⟩
  else if id = "night_owl" then ⟨"Coruja Noturna", "Jogue depois da meia-noite", 75⟩
  else if id = "level_10" then ⟨"Artista Dedicado", "Alcance o nível 10", 500⟩
  else if id = "abstract_master" then ⟨"Mestre Abstrato", "Confunda a IA 5 vezes", 150⟩
  else ⟨"", "", 0⟩

/-- Embeds AchievementSystem.check_achievements: the five sequential rule
checks, threading the mutated player through, returning the new ids in
check order. -/
def check_achievements (player : Player) (session : DrawingSession) :
    Player × List String :=
  let p := player
  let new : List String := []
  let s1 : Player × List String :=
    if p.total_drawings = 1 ∧ "first_draw" ∉ p.achievements then
      (p.add_achievement "first_draw", new ++ ["first_draw"])
    else (p, new)
  let s2 : Player × List String :=
    if session.time_spent < 5 ∧ session.correct = true ∧ "speed_demon" ∉ s1.1.achievements then
      (s1.1.add_achievement "speed_demon", s1.2 ++ ["speed_demon"])
    else s1
  let s3 : Player × List String :=
    if 10 ≤ s2.1.streak ∧ "perfectionist" ∉ s2.1.achievements then
      (s2.1.add_achievement "perfectionist", s2.2 ++ ["perfectionist"])
    else s2
  let s4 : Player × List String :=
    if 10 ≤ s3.1.level ∧ "level_10" ∉ s3.1.achievements then
      (s3.1.add_achievement "level_10", s3.2 ++ ["level_10"])
    else s3
  let s5 : Player × List String :=
    if "abstract_master" ∉ s4.1.achievements ∧ 5 ≤ s4.1.total_drawings - s4.1.correct_guesses then
      (s4.1.add_achievement "abstract_master", s4.2 ++ ["abstract_master"])
    else s4
  s5

/-- Embeds game_manager.py GameManager state: heap of Player objects plus
the insertion-ordered dicts of players, sessions and rooms. -/
structure GameState where
  nextRef : Nat
  heap : Nat → Player
  players : List (String × Nat)
  sessions : List (String × DrawingSession)
  multiplayer_rooms : List (String × List String)

/-- Embeds a Python dict read d.get(k): first (and only) binding of a key. -/
def alistLookup {α : Type} : List (String × α) → String → Option α
  | [], _ => none
  | (k1, v) :: rest, k => if k1 = k then some v else alistLookup rest k

/-- Embeds a Python dict write d[k] = v: overwrite in place when the key is
present, append otherwise. -/
def alistInsert {α : Type} : List (String × α) → String → α → List (String × α)
  | [], k, v => [(k, v)]
  | (k1, v1) :: rest, k, v =>
      if k1 = k then (k, v) :: rest else (k1, v1) :: alistInsert rest k v

/-- Embeds mutation of a heap object in place. -/
def updateHeap (h : Nat → Player) (r : Nat) (p : Player) : Nat → Player :=
  fun x => if x = r then p else h x

/-- Embeds the difficulty adjustment of GameManager.start_session: the
caller difficulty is reassigned from the player level; at level 7 and above
random.choice([MEDIUM, HARD]) is the oracle `coin`. -/
def computeDifficulty (hint : Difficulty) (level : Int) (coin : Bool) : Difficulty :=
  if level < 3 then Difficulty.easy
  else if level < 7 then Difficulty.medium
  else if coin then Difficulty.medium else Difficulty.hard

/-- Embeds the shared tail of GameManager.start_session: compute the
difficulty, generate the prompt, allocate and store the session. -/
def start_session_body (st : GameState) (r : Nat) (difficulty : Difficulty)
    (surprise_mode : Bool) (uuidSession : String) (diffCoin surpriseCoin : Bool)
    (promptIdx : Nat) (now : Int) : GameState × DrawingSession :=
  let player := st.heap r
  let d := computeDifficulty difficulty player.level diffCoin
  let prompt := PromptGenerator.generate d surprise_mode surpriseCoin promptIdx
  let session : DrawingSession :=
    { session_id := uuidSession, playerRef := r, prompt := prompt, started_at := now }
  ({ st with sessions := alistInsert st.sessions uuidSession session }, session)

/-- Embeds GameManager.start_session of templates_static/game_manager.py
(the auto-creating variant): an unknown player_id first creates a player
under a fresh uuid, then mutates the object id and stores the same object
under the supplied id as well. -/
def start_session (st : GameState) (player_id : String) (difficulty : Difficulty)
    (surprise_mode : Bool) (uuidNew : String) (uuidSession : String)
    (diffCoin surpriseCoin : Bool) (promptIdx : Nat) (now : Int) :
    GameState × DrawingSession :=
  match alistLookup st.players player_id with
  | some r =>
      start_session_body st r difficulty surprise_mode uuidSession diffCoin
        surpriseCoin promptIdx now
  | none =>
      let r := st.nextRef
      let p0 : Player := { id := uuidNew, name := "Player_" ++ player_id, last_played := some now }
      let st1 : GameState :=
        { st with nextRef := r + 1, heap := updateHeap st.heap r p0,
                  players := alistInsert st.players uuidNew r }
      let st2 : GameState :=
        { st1 with heap := updateHeap st1.heap r { p0 with id := player_id },
                   players := alistInsert st1.players player_id r }
      start_session_body st2 r difficulty surprise_mode uuidSession diffCoin
        surpriseCoin promptIdx now

/-- Embeds base_score of complete_session. -/
def baseScore (correct : Bool) : Int :=
  if correct then 100 else 20

/-- Embeds time_bonus of complete_session: max(0, int((time_limit - time_spent) * 5)). -/
def timeBonus (time_limit : Int) (time_spent : Rat) : Int :=
  max 0 (ratTrunc (((time_limit : Rat) - time_spent) * 5))

/-- Embeds confidence_bonus of complete_session: int(confidence / 2). -/
def confidenceBonus (confidence : Int) : Int :=
  ratTrunc ((confidence : Rat) / 2)

/-- Embeds the player statistics update of complete_session: increment
total_drawings, stamp last_played, then update correct_guesses and streak
by the correctness flag. -/
def statsStage (player : Player) (correct : Bool) (now : Int) : Player :=
  let p1 := { player with total_drawings := player.total_drawings + 1, last_played := some now }
  if correct then
    { p1 with correct_guesses := p1.correct_guesses + 1, streak := p1.streak + 1 }
  else
    { p1 with streak := 0 }

/-- Embeds GameManager._unlock_brushes: the four level thresholds in dict
insertion order. -/
def unlock_brushes (player : Player) : Player :=
  [((3 : Int), BrushType.neon), (5, BrushType.spray), (7, BrushType.marker),
   (10, BrushType.sparkle)].foldl
    (fun pl lb => if lb.1 ≤ pl.level then pl.unlock_brush lb.2 else pl) player

/-- Embeds the dict returned by complete_session. -/
structure CompletionResult where
  session : DrawingSession
  score : Int
  xp : Int
  base : Int
  time_bonus : Int
  confidence_bonus : Int
  achievements : List String
  level_up : Bool
  new_level : Option Int
deriving DecidableEq, Repr

/-- Embeds the body of GameManager.complete_session after the session
lookup succeeded: record the result on the session, score it, update the
player statistics, add xp, unlock brushes, evaluate achievements and grant
their bonus xp one add_xp call each, then store the mutated objects. -/
def completeBody (st : GameState) (sess : DrawingSession) (session_id : String)
    (drawing_data : String) (ai : AIResult) (time_spent : Rat) (now : Int) :
    GameState × CompletionResult :=
  let player := st.heap sess.playerRef
  let sess1 : DrawingSession :=
    { sess with drawing_data := some drawing_data, ai_guesses := ai.guesses,
                correct := ai.correct, time_spent := time_spent }
  let base_score := baseScore sess1.correct
  let time_bonus := timeBonus sess1.prompt.time_limit time_spent
  let confidence_bonus := confidenceBonus ai.confidence
  let sess2 : DrawingSession :=
    { sess1 with score := base_score + time_bonus + confidence_bonus }
  let p2 := statsStage player sess2.correct now
  let r := p2.add_xp sess2.score
  let p3 := r.1
  let level_up := r.2
  let p4 := unlock_brushes p3
  let ca := check_achievements p4 sess2
  let p5 := ca.1
  let new_achievements := ca.2
  let p6 := new_achievements.foldl (fun pl aid => (pl.add_xp (ACHIEVEMENTS aid).xp).1) p5
  let stOut : GameState :=
    { st with heap := updateHeap st.heap sess.playerRef p6,
              sessions := alistInsert st.sessions session_id sess2 }
  (stOut,
   { session := sess2, score := sess2.score, xp := sess2.score,
     base := base_score, time_bonus := time_bonus,
     confidence_bonus := confidence_bonus,
     achievements := new_achievements, level_up := level_up,
     new_level := if level_up then some p6.level else none })

/-- Embeds GameManager.complete_session: look the session up, raise
ValueError when it is unknown, otherwise run the completion body. -/
def complete_session (st : GameState) (session_id : String) (drawing_data : String)
    (ai : AIResult) (time_spent : Rat) (now : Int) :
    Except String (GameState × CompletionResult) :=
  match alistLookup st.sessions session_id with
  | none => Except.error "Sessão não encontrada"
  | some sess => Except.ok (completeBody st sess session_id drawing_data ai time_spent now)

/-- Embeds the sort key of get_leaderboard: `a` may come before `b` in the
descending order exactly when the key (level, correct_guesses) of `b` is
lexicographically at most the key of `a`. -/
def keyGe (a b : Player) : Prop :=
  b.level < a.level ∨ (b.level = a.level ∧ b.correct_guesses ≤ a.correct_guesses)

instance : DecidableRel keyGe := fun a b => by
  unfold keyGe
  infer_instance

instance : IsTotal Player keyGe := by
  constructor
  intro a b
  unfold keyGe
  omega

instance : IsTrans Player keyGe := by
  constructor
  intro a b c hab hbc
  unfold keyGe at hab hbc ⊢
  omega

/-- Embeds self.players.values(): the stored objects in dict insertion order. -/
def playersValues (st : GameState) : List Player :=
  st.players.map (fun kv => st.heap kv.2)

/-- Embeds the accuracy expression of get_leaderboard:
round((correct_guesses / total_drawings * 100) if total_drawings > 0 else 0, 1). -/
def accuracyOf (p : Player) : Rat :=
  roundTo1
    (if 0 < p.total_drawings then
       (p.correct_guesses : Rat) / (p.total_drawings : Rat) * 100
     else 0)

/-- Embeds one row of the get_leaderboard result. -/
structure LBEntry where
  rank : Nat
  name : String
  level : Int
  xp : Int
  total_drawings : Int
  accuracy : Rat
  streak : Int
deriving DecidableEq, Repr

/-- Embeds one leaderboard row built from a player. -/
def mkEntry (rank : Nat) (p : Player) : LBEntry :=
  { rank := rank, name := p.name, level := p.level, xp := p.xp,
    total_drawings := p.total_drawings, accuracy := accuracyOf p,
    streak := p.streak }

/-- Embeds the enumerate loop of get_leaderboard, ranks starting at the
given value. -/
def lbEntries (rank : Nat) : List Player → List LBEntry
  | [] => []
  | p :: ps => mkEntry rank p :: lbEntries (rank + 1) ps

/-- Embeds GameManager.get_leaderboard: stable descending sort of the
player objects by (level, correct_guesses), truncated to `limit`, rows
ranked from 1. Python sorted is a stable sort, so it agrees with
List.insertionSort under the total preorder keyGe. -/
def get_leaderboard (st : GameState) (limit : Nat) : List LBEntry :=
  lbEntries 1 ((List.insertionSort keyGe (playersValues st)).take limit)

/-! Helper lemmas about the embedded operations. -/

theorem add_xp_fst (p : Player) (n : Int) :
    (p.add_xp n).1 =
      (if p.level * 100 ≤ p.xp + n then
        { p with xp := p.xp + n - p.level * 100, level := p.level + 1 }
      else { p with xp := p.xp + n }) := by
  unfold Player.add_xp
  split
  · rename_i h
    rw [if_pos h]
  · rename_i h
    rw [if_neg (by omega)]

theorem add_xp_snd (p : Player) (n : Int) :
    (p.add_xp n).2 = (if p.level * 100 ≤ p.xp + n then true else false) := by
  unfold Player.add_xp
  split
  · rename_i h
    rw [if_pos h]
  · rename_i h
    rw [if_neg (by omega)]

theorem add_xp_total_drawings (p : Player) (n : Int) :
    (p.add_xp n).1.total_drawings = p.total_drawings := by
  rw [add_xp_fst]
  split <;> rfl

theorem add_xp_correct_guesses (p : Player) (n : Int) :
    (p.add_xp n).1.correct_guesses = p.correct_guesses := by
  rw [add_xp_fst]
  split <;> rfl

theorem add_xp_streak (p : Player) (n : Int) :
    (p.add_xp n).1.streak = p.streak := by
  rw [add_xp_fst]
  split <;> rfl

theorem add_xp_last_played (p : Player) (n : Int) :
    (p.add_xp n).1.last_played = p.last_played := by
  rw [add_xp_fst]
  split <;> rfl

theorem add_xp_achievements (p : Player) (n : Int) :
    (p.add_xp n).1.achievements = p.achievements := by
  rw [add_xp_fst]
  split <;> rfl

theorem unlock_brush_total_drawings (p : Player) (b : BrushType) :
    (p.unlock_brush b).total_drawings = p.total_drawings := by
  unfold Player.unlock_brush
  split <;> rfl

theorem unlock_brush_correct_guesses (p : Player) (b : BrushType) :
    (p.unlock_brush b).correct_guesses = p.correct_guesses := by
  unfold Player.unlock_brush
  split <;> rfl

theorem unlock_brush_streak (p : Player) (b : BrushType) :
    (p.unlock_brush b).streak = p.streak := by
  unfold Player.unlock_brush
  split <;> rfl

theorem unlock_brush_last_played (p : Player) (b : BrushType) :
    (p.unlock_brush b).last_played = p.last_played := by
  unfold Player.unlock_brush
  split <;> rfl

theorem unlock_brush_level (p : Player) (b : BrushType) :
    (p.unlock_brush b).level = p.level := by
  unfold Player.unlock_brush
  split <;> rfl

theorem unlock_brush_xp (p : Player) (b : BrushType) :
    (p.unlock_brush b).xp = p.xp := by
  unfold Player.unlock_brush
  split <;> rfl

theorem unlock_brush_achievements (p : Player) (b : BrushType) :
    (p.unlock_brush b).achievements = p.achievements := by
  unfold Player.unlock_brush
  split <;> rfl

/-- The brush unlock fold touches only the brushes_unlocked field. -/
theorem unlockFold_shape : ∀ (l : List (Int × BrushType)) (p : Player),
    l.foldl (fun pl lb => if lb.1 ≤ pl.level then pl.unlock_brush lb.2 else pl) p =
      { p with brushes_unlocked :=
          (l.foldl (fun pl lb => if lb.1 ≤ pl.level then pl.unlock_brush lb.2 else pl)
            p).brushes_unlocked } := by
  intro l
  induction l with
  | nil =>
      intro p
      rfl
  | cons hd tl ih =>
      intro p
      simp only [List.foldl_cons]
      by_cases h : hd.1 ≤ p.level
      · rw [if_pos h, ih (p.unlock_brush hd.2)]
        unfold Player.unlock_brush
        split <;> rfl
      · rw [if_neg h]
        exact ih p

/-- unlock_brushes touches only the brushes_unlocked field. -/
theorem unlock_brushes_shape (p : Player) :
    unlock_brushes p = { p with brushes_unlocked := (unlock_brushes p).brushes_unlocked } := by
  unfold unlock_brushes
  exact unlockFold_shape _ p

theorem add_achievement_mem (p : Player) (a b : String) :
    b ∈ (p.add_achievement a).achievements ↔ (b ∈ p.achievements ∨ b = a) := by
  unfold Player.add_achievement
  split
  · rename_i h
    constructor
    · exact Or.inl
    · rintro (hb | rfl)
      · exact hb
      · exact h
  · simp [List.mem_append]

theorem add_achievement_streak (p : Player) (a : String) :
    (p.add_achievement a).streak = p.streak := by
  unfold Player.add_achievement
  split <;> rfl

theorem add_achievement_level (p : Player) (a : String) :
    (p.add_achievement a).level = p.level := by
  unfold Player.add_achievement
  split <;> rfl

theorem add_achievement_total_drawings (p : Player) (a : String) :
    (p.add_achievement a).total_drawings = p.total_drawings := by
  unfold Player.add_achievement
  split <;> rfl

theorem add_achievement_correct_guesses (p : Player) (a : String) :
    (p.add_achievement a).correct_guesses = p.correct_guesses := by
  unfold Player.add_achievement
  split <;> rfl

theorem add_achievement_xp (p : Player) (a : String) :
    (p.add_achievement a).xp = p.xp := by
  unfold Player.add_achievement
  split <;> rfl

theorem add_achievement_last_played (p : Player) (a : String) :
    (p.add_achievement a).last_played = p.last_played := by
  unfold Player.add_achievement
  split <;> rfl

theorem add_achievement_ach (p : Player) (a : String) :
    (p.add_achievement a).achievements =
      (if a ∈ p.achievements then p.achievements else p.achievements ++ [a]) := by
  unfold Player.add_achievement
  split <;> simp_all

theorem add_achievement_of_not_mem (p : Player) (a : String) (h : a ∉ p.achievements) :
    p.add_achievement a = { p with achievements := p.achievements ++ [a] } := by
  unfold Player.add_achievement
  rw [if_neg h]

/-- The list of newly unlocked achievement ids, written as predicates over
the original player: the rules only ever append to the achievements list,
and the five ids are pairwise distinct, so the sequential membership checks
agree with checks against the original player. -/
def newAch (p : Player) (s : DrawingSession) : List String :=
  (if p.total_drawings = 1 ∧ "first_draw" ∉ p.achievements then ["first_draw"] else []) ++
  (if s.time_spent < 5 ∧ s.correct = true ∧ "speed_demon" ∉ p.achievements then ["speed_demon"] else []) ++
  (if 10 ≤ p.streak ∧ "perfectionist" ∉ p.achievements then ["perfectionist"] else []) ++
  (if 10 ≤ p.level ∧ "level_10" ∉ p.achievements then ["level_10"] else []) ++
  (if "abstract_master" ∉ p.achievements ∧ 5 ≤ p.total_drawings - p.correct_guesses then
    ["abstract_master"] else [])

set_option maxHeartbeats 1600000 in
/-- Normal form of check_achievements: it returns the newAch list and
appends exactly that list to the achievements of the player. -/
theorem check_achievements_eq (p : Player) (s : DrawingSession) :
    check_achievements p s =
      ({ p with achievements := p.achievements ++ newAch p s }, newAch p s) := by
  simp only [check_achievements, newAch]
  split_ifs <;>
    simp_all [add_achievement_of_not_mem, add_achievement_mem, add_achievement_streak,
      add_achievement_level, add_achievement_total_drawings,
      add_achievement_correct_guesses] <;>
    omega

theorem mem_ite_singleton (c : Prop) [Decidable c] (x a : String) :
    (a ∈ (if c then [x] else ([] : List String))) ↔ (c ∧ a = x) := by
  split <;> simp_all

theorem floor_le_pyRound (q : Rat) : ⌊q⌋ ≤ pyRound q := by
  unfold pyRound
  split
  · split <;> omega
  · rw [round_eq]
    exact Int.floor_le_floor (by linarith)

theorem pyRound_le_of_le (q : Rat) (n : Int) (h : q ≤ n) : pyRound q ≤ n := by
  unfold pyRound
  split
  · rename_i ht
    have h1 : (⌊q⌋ : Rat) ≤ q := Int.floor_le q
    have h3 : ((⌊q⌋ : Int) : Rat) < (n : Rat) := by linarith
    have h4 : ⌊q⌋ < n := by exact_mod_cast h3
    split <;> omega
  · rw [round_eq]
    have h6 : ⌊q + 1 / 2⌋ < n + 1 := by
      apply Int.floor_lt.mpr
      push_cast
      linarith
    omega

theorem pyRound_nonneg (q : Rat) (h : 0 ≤ q) : 0 ≤ pyRound q := by
  have h1 := floor_le_pyRound q
  have h0 : 0 ≤ ⌊q⌋ := Int.le_floor.mpr (by exact_mod_cast h)
  omega

theorem roundTo1_nonneg (q : Rat) (h : 0 ≤ q) : 0 ≤ roundTo1 q := by
  unfold roundTo1
  apply div_nonneg _ (by norm_num)
  exact_mod_cast pyRound_nonneg _ (by linarith)

theorem roundTo1_le_100 (q : Rat) (h : q ≤ 100) : roundTo1 q ≤ 100 := by
  unfold roundTo1
  rw [div_le_iff₀ (by norm_num)]
  have h1 : pyRound (q * 10) ≤ 1000 := pyRound_le_of_le _ 1000 (by push_cast; linarith)
  have h2 : (pyRound (q * 10) : Rat) ≤ 1000 := by exact_mod_cast h1
  linarith

theorem roundTo1_zero : roundTo1 0 = 0 := by
  unfold roundTo1 pyRound
  norm_num

theorem ratTrunc_eq_floor (q : Rat) (h : 0 ≤ q) : ratTrunc q = ⌊q⌋ := by
  unfold ratTrunc
  rw [if_pos h]

theorem max_ratTrunc_eq_max_floor (q : Rat) : max 0 (ratTrunc q) = max 0 ⌊q⌋ := by
  unfold ratTrunc
  split
  · rfl
  · rename_i h
    push_neg at h
    have h1 : ⌈q⌉ ≤ 0 := Int.ceil_le.mpr (by push_cast; linarith)
    have h2 : ⌊q⌋ ≤ 0 := le_trans (Int.floor_le_ceil q) h1
    omega

theorem timeBonus_eq_floor (L : Int) (t : Rat) :
    timeBonus L t = max 0 ⌊((L : Rat) - t) * 5⌋ := by
  unfold timeBonus
  exact max_ratTrunc_eq_max_floor _

theorem timeBonus_zero_of_le (L : Int) (t : Rat) (h : (L : Rat) ≤ t) :
    timeBonus L t = 0 := by
  rw [timeBonus_eq_floor]
  have h0 : ((L : Rat) - t) * 5 ≤ 0 := by nlinarith
  have hf : ⌊((L : Rat) - t) * 5⌋ ≤ 0 := Int.floor_nonpos h0
  omega

theorem ratTrunc_intCast (n : Int) : ratTrunc ((n : Int) : Rat) = n := by
  unfold ratTrunc
  split <;> simp

theorem timeBonus_unbounded (L : Int) (B : Int) : ∃ t : Rat, B < timeBonus L t := by
  refine ⟨(L : Rat) - ((B.natAbs + 1 : Int) : Rat), ?_⟩
  unfold timeBonus
  have he : ((L : Rat) - ((L : Rat) - ((B.natAbs + 1 : Int) : Rat))) * 5 =
      ((5 * (B.natAbs + 1) : Int) : Rat) := by
    push_cast
    ring
  rw [he, ratTrunc_intCast]
  omega

theorem confidenceBonus_eq_floor (c : Int) (h : 0 ≤ c) :
    confidenceBonus c = ⌊(c : Rat) / 2⌋ := by
  unfold confidenceBonus
  apply ratTrunc_eq_floor
  positivity

theorem alistLookup_insert {α : Type} (l : List (String × α)) (k : String) (v : α) :
    alistLookup (alistInsert l k v) k = some v := by
  induction l with
  | nil => simp [alistInsert, alistLookup]
  | cons hd tl ih =>
      by_cases h : hd.1 = k
      · simp [alistInsert, alistLookup, h]
      · cases hd
        simp_all [alistInsert, alistLookup, h]

theorem statsStage_total_drawings (p : Player) (c : Bool) (now : Int) :
    (statsStage p c now).total_drawings = p.total_drawings + 1 := by
  simp only [statsStage]
  split <;> rfl

theorem statsStage_last_played (p : Player) (c : Bool) (now : Int) :
    (statsStage p c now).last_played = some now := by
  simp only [statsStage]
  split <;> rfl

theorem statsStage_correct_guesses (p : Player) (c : Bool) (now : Int) :
    (statsStage p c now).correct_guesses =
      p.correct_guesses + (if c then 1 else 0) := by
  simp only [statsStage]
  split <;> simp_all

theorem statsStage_streak (p : Player) (c : Bool) (now : Int) :
    (statsStage p c now).streak = (if c then p.streak + 1 else 0) := by
  simp only [statsStage]
  split <;> simp_all

theorem statsStage_level (p : Player) (c : Bool) (now : Int) :
    (statsStage p c now).level = p.level := by
  simp only [statsStage]
  split <;> rfl

theorem statsStage_xp (p : Player) (c : Bool) (now : Int) :
    (statsStage p c now).xp = p.xp := by
  simp only [statsStage]
  split <;> rfl

theorem bonusFold_total_drawings : ∀ (l : List String) (p : Player),
    (l.foldl (fun pl aid => (pl.add_xp (ACHIEVEMENTS aid).xp).1) p).total_drawings =
      p.total_drawings := by
  intro l
  induction l with
  | nil => intro p; rfl
  | cons hd tl ih =>
      intro p
      simp only [List.foldl_cons]
      rw [ih, add_xp_total_drawings]

theorem bonusFold_correct_guesses : ∀ (l : List String) (p : Player),
    (l.foldl (fun pl aid => (pl.add_xp (ACHIEVEMENTS aid).xp).1) p).correct_guesses =
      p.correct_guesses := by
  intro l
  induction l with
  | nil => intro p; rfl
  | cons hd tl ih =>
      intro p
      simp only [List.foldl_cons]
      rw [ih, add_xp_correct_guesses]

theorem bonusFold_streak : ∀ (l : List String) (p : Player),
    (l.foldl (fun pl aid => (pl.add_xp (ACHIEVEMENTS aid).xp).1) p).streak = p.streak := by
  intro l
  induction l with
  | nil => intro p; rfl
  | cons hd tl ih =>
      intro p
      simp only [List.foldl_cons]
      rw [ih, add_xp_streak]

theorem bonusFold_last_played : ∀ (l : List String) (p : Player),
    (l.foldl (fun pl aid => (pl.add_xp (ACHIEVEMENTS aid).xp).1) p).last_played =
      p.last_played := by
  intro l
  induction l with
  | nil => intro p; rfl
  | cons hd tl ih =>
      intro p
      simp only [List.foldl_cons]
      rw [ih, add_xp_last_played]

/-- Unfolded form of the completion body: same computation with the stage
helpers exposed. -/
theorem completeBody_unfold (st : GameState) (sess : DrawingSession) (sid dd : String)
    (ai : AIResult) (t : Rat) (now : Int) :
    completeBody st sess sid dd ai t now =
      (let score := baseScore ai.correct + timeBonus sess.prompt.time_limit t +
         confidenceBonus ai.confidence
       let sess2 : DrawingSession :=
         { sess with drawing_data := some dd, ai_guesses := ai.guesses,
                     correct := ai.correct, time_spent := t, score := score }
       let r := (statsStage (st.heap sess.playerRef) ai.correct now).add_xp score
       let p4 := unlock_brushes r.1
       let ca := check_achievements p4 sess2
       let p6 := ca.2.foldl (fun pl aid => (pl.add_xp (ACHIEVEMENTS aid).xp).1) ca.1
       ({ st with heap := updateHeap st.heap sess.playerRef p6,
                  sessions := alistInsert st.sessions sid sess2 },
        { session := sess2, score := score, xp := score, base := baseScore ai.correct,
          time_bonus := timeBonus sess.prompt.time_limit t,
          confidence_bonus := confidenceBonus ai.confidence,
          achievements := ca.2, level_up := r.2,
          new_level := if r.2 then some p6.level else none })) := rfl

theorem updateHeap_same (h : Nat → Player) (r : Nat) (p : Player) :
    updateHeap h r p r = p := by
  unfold updateHeap
  simp

theorem choice_mem : ∀ (l : List String) (idx : Nat), l ≠ [] → choice l idx ∈ l := by
  intro l idx h
  match l with
  | [] => exact absurd rfl h
  | a :: as => exact List.get_mem _ _ _

theorem lbEntries_getElem? : ∀ (l : List Player) (r i : Nat),
    (lbEntries r l)[i]? = l[i]?.map (fun p => mkEntry (r + i) p) := by
  intro l
  induction l with
  | nil => intro r i; simp [lbEntries]
  | cons hd tl ih =>
      intro r i
      cases i with
      | zero => simp [lbEntries]
      | succ j =>
          simp only [lbEntries, List.getElem?_cons_succ, ih (r + 1) j]
          have : r + 1 + j = r + (j + 1) := by omega
          rw [this]

theorem lbEntries_length : ∀ (l : List Player) (r : Nat),
    (lbEntries r l).length = l.length := by
  intro l
  induction l with
  | nil => intro r; rfl
  | cons hd tl ih => intro r; simp [lbEntries, ih]

theorem lbEntries_mem : ∀ (l : List Player) (r : Nat) (e : LBEntry),
    e ∈ lbEntries r l → ∃ p, p ∈ l ∧ ∃ k, e = mkEntry k p := by
  intro l
  induction l with
  | nil => intro r e h; simp [lbEntries] at h
  | cons hd tl ih =>
      intro r e h
      simp only [lbEntries, List.mem_cons] at h
      rcases h with h | h
      · exact ⟨hd, List.mem_cons_self _ _, r, h⟩
      · rcases ih (r + 1) e h with ⟨p, hp, k, hk⟩
        exact ⟨p, List.mem_cons_of_mem _ hp, k, hk⟩

theorem check_achievements_total_drawings (p : Player) (s : DrawingSession) :
    (check_achievements p s).1.total_drawings = p.total_drawings := by
  rw [check_achievements_eq]

theorem check_achievements_correct_guesses (p : Player) (s : DrawingSession) :
    (check_achievements p s).1.correct_guesses = p.correct_guesses := by
  rw [check_achievements_eq]

theorem check_achievements_streak (p : Player) (s : DrawingSession) :
    (check_achievements p s).1.streak = p.streak := by
  rw [check_achievements_eq]

theorem check_achievements_last_played (p : Player) (s : DrawingSession) :
    (check_achievements p s).1.last_played = p.last_played := by
  rw [check_achievements_eq]

theorem check_achievements_level (p : Player) (s : DrawingSession) :
    (check_achievements p s).1.level = p.level := by
  rw [check_achievements_eq]

theorem check_achievements_xp (p : Player) (s : DrawingSession) :
    (check_achievements p s).1.xp = p.xp := by
  rw [check_achievements_eq]

theorem unlock_brushes_total_drawings (p : Player) :
    (unlock_brushes p).total_drawings = p.total_drawings := by
  rw [unlock_brushes_shape]

theorem unlock_brushes_correct_guesses (p : Player) :
    (unlock_brushes p).correct_guesses = p.correct_guesses := by
  rw [unlock_brushes_shape]

theorem unlock_brushes_streak (p : Player) :
    (unlock_brushes p).streak = p.streak := by
  rw [unlock_brushes_shape]

theorem unlock_brushes_last_played (p : Player) :
    (unlock_brushes p).last_played = p.last_played := by
  rw [unlock_brushes_shape]

theorem unlock_brushes_level (p : Player) :
    (unlock_brushes p).level = p.level := by
  rw [unlock_brushes_shape]

theorem unlock_brushes_xp (p : Player) :
    (unlock_brushes p).xp = p.xp := by
  rw [unlock_brushes_shape]

theorem completeBody_heap_total_drawings (st : GameState) (sess : DrawingSession)
    (sid dd : String) (ai : AIResult) (t : Rat) (now : Int) :
    ((completeBody st sess sid dd ai t now).1.heap sess.playerRef).total_drawings =
      (st.heap sess.playerRef).total_drawings + 1 := by
  rw [completeBody_unfold]
  simp only [updateHeap_same, bonusFold_total_drawings, check_achievements_total_drawings,
    unlock_brushes_total_drawings, add_xp_total_drawings, statsStage_total_drawings]

theorem completeBody_heap_last_played (st : GameState) (sess : DrawingSession)
    (sid dd : String) (ai : AIResult) (t : Rat) (now : Int) :
    ((completeBody st sess sid dd ai t now).1.heap sess.playerRef).last_played =
      some now := by
  rw [completeBody_unfold]
  simp only [updateHeap_same, bonusFold_last_played, check_achievements_last_played,
    unlock_brushes_last_played, add_xp_last_played, statsStage_last_played]

theorem completeBody_heap_correct_guesses (st : GameState) (sess : DrawingSession)
    (sid dd : String) (ai : AIResult) (t : Rat) (now : Int) :
    ((completeBody st sess sid dd ai t now).1.heap sess.playerRef).correct_guesses =
      (st.heap sess.playerRef).correct_guesses + (if ai.correct then 1 else 0) := by
  rw [completeBody_unfold]
  simp only [updateHeap_same, bonusFold_correct_guesses, check_achievements_correct_guesses,
    unlock_brushes_correct_guesses, add_xp_correct_guesses, statsStage_correct_guesses]

theorem completeBody_heap_streak (st : GameState) (sess : DrawingSession)
    (sid dd : String) (ai : AIResult) (t : Rat) (now : Int) :
    ((completeBody st sess sid dd ai t now).1.heap sess.playerRef).streak =
      (if ai.correct then (st.heap sess.playerRef).streak + 1 else 0) := by
  rw [completeBody_unfold]
  simp only [updateHeap_same, bonusFold_streak, check_achievements_streak,
    unlock_brushes_streak, add_xp_streak, statsStage_streak]

theorem complete_session_error_iff (st : GameState) (sid dd : String) (ai : AIResult)
    (t : Rat) (now : Int) :
    complete_session st sid dd ai t now = Except.error "Sessão não encontrada" ↔
      alistLookup st.sessions sid = none := by
  unfold complete_session
  cases h : alistLookup st.sessions sid <;> simp [h]

theorem accuracyOf_bounds (p : Player) (h0 : 0 ≤ p.correct_guesses)
    (h1 : p.correct_guesses ≤ p.total_drawings) :
    0 ≤ accuracyOf p ∧ accuracyOf p ≤ 100 := by
  unfold accuracyOf
  by_cases hd : 0 < p.total_drawings
  · rw [if_pos hd]
    have hc0 : (0 : Rat) ≤ (p.correct_guesses : Rat) := by exact_mod_cast h0
    have hd0 : (0 : Rat) < (p.total_drawings : Rat) := by exact_mod_cast hd
    have hc1 : (p.correct_guesses : Rat) ≤ (p.total_drawings : Rat) := by exact_mod_cast h1
    have hq0 : (0 : Rat) ≤ (p.correct_guesses : Rat) / (p.total_drawings : Rat) * 100 := by
      apply mul_nonneg (div_nonneg hc0 (le_of_lt hd0))
      norm_num
    have hq1 : (p.correct_guesses : Rat) / (p.total_drawings : Rat) * 100 ≤ 100 := by
      have hdiv : (p.correct_guesses : Rat) / (p.total_drawings : Rat) ≤ 1 :=
        (div_le_one hd0).mpr hc1
      nlinarith
    exact ⟨roundTo1_nonneg _ hq0, roundTo1_le_100 _ hq1⟩
  · rw [if_neg hd, roundTo1_zero]
    norm_num

theorem accuracyOf_zero (p : Player) (h : p.total_drawings = 0) : accuracyOf p = 0 := by
  unfold accuracyOf
  rw [if_neg (by omega), roundTo1_zero]

/-! Concrete states used by the counterexamples and witnesses. -/

/-- A freshly created player, as create_player makes one. -/
def pBase : Player := { id := "p1", name := "Ana", last_played := some 0 }

/-- A pending session with an easy prompt of time limit 20. -/
def sess20 : DrawingSession :=
  { session_id := "s1", playerRef := 0,
    prompt := { text := "gato", difficulty := Difficulty.easy, time_limit := 20 },
    started_at := 0 }

/-- A game state holding pBase and sess20. -/
def st20 : GameState :=
  { nextRef := 1, heap := fun _ => pBase, players := [("p1", 0)],
    sessions := [("s1", sess20)], multiplayer_rooms := [] }

/-- A pending session with a hard prompt of time limit 30. -/
def sess30 : DrawingSession :=
  { session_id := "s2", playerRef := 0,
    prompt := { text := "tempo", difficulty := Difficulty.hard, time_limit := 30 },
    started_at := 0 }

/-- A game state holding pBase and sess30. -/
def st30 : GameState :=
  { nextRef := 1, heap := fun _ => pBase, players := [("p1", 0)],
    sessions := [("s2", sess30)], multiplayer_rooms := [] }

/-- A game state with no players and no sessions. -/
def emptyState : GameState :=
  { nextRef := 0, heap := fun _ => pBase, players := [], sessions := [],
    multiplayer_rooms := [] }

/-- The ai_result of the section 8 scenario: correct with confidence 80. -/
def aiW : AIResult := { guesses := ["x"], correct := true, confidence := 80 }

/-- An ai_result with confidence 0, correct. -/
def aiC1 : AIResult := { guesses := [], correct := true, confidence := 0 }

/-- An ai_result with confidence 100, correct. -/
def aiC2 : AIResult := { guesses := [], correct := true, confidence := 100 }

/-- An ai_result with confidence 80, correct. -/
def aiC3 : AIResult := { guesses := ["gato"], correct := true, confidence := 80 }

/-- The stored session after completing sess20 with aiC3 at time 10. -/
def sess20done : DrawingSession :=
  { sess20 with drawing_data := some "d1", ai_guesses := ["gato"], correct := true,
                time_spent := 10, score := 190 }

/-- The state produced by the auto-creating start_session on an unknown
player id, starting from the empty state. -/
def c10state (pid uuidNew uuidSession : String) (d : Difficulty)
    (surprise diffCoin surpriseCoin : Bool) (idx : Nat) (now : Int) : GameState :=
  (start_session emptyState pid d surprise uuidNew uuidSession diffCoin surpriseCoin
    idx now).1

/-- A player used to witness the add_xp theorems. -/
def wPlayer : Player := { id := "w", name := "Bea", level := 2, xp := 150 }

/-! Claim theorems. -/

/-- Claim C4: Player.add_xp(points) adds points to xp and then checks the
level threshold exactly once: if xp reaches level*100 it increments level
by 1, subtracts the old threshold and reports a level up, otherwise it
reports false and changes nothing else; consequently, for any player with
0 ≤ xp < level*100, add_xp(level*100) triggers exactly one level up and
leaves xp ≥ 0 and below the new threshold. -/
theorem claim_C4_add_xp (p : Player) (points : Int) :
    (p.xp + points < p.level * 100 →
      p.add_xp points = ({ p with xp := p.xp + points }, false)) ∧
    (p.level * 100 ≤ p.xp + points →
      p.add_xp points =
        ({ p with xp := p.xp + points - p.level * 100, level := p.level + 1 }, true)) ∧
    (0 ≤ p.xp → p.xp < p.level * 100 →
      (p.add_xp (p.level * 100)).2 = true ∧
      (p.add_xp (p.level * 100)).1.level = p.level + 1 ∧
      0 ≤ (p.add_xp (p.level * 100)).1.xp ∧
      (p.add_xp (p.level * 100)).1.xp < (p.add_xp (p.level * 100)).1.level * 100) := by
  refine ⟨?_, ?_, ?_⟩
  · intro h
    unfold Player.add_xp
    rw [if_neg (by omega)]
  · intro h
    unfold Player.add_xp
    rw [if_pos h]
  · intro h0 h1
    have hc : p.level * 100 ≤ p.xp + p.level * 100 := by omega
    refine ⟨?_, ?_, ?_, ?_⟩
    · rw [add_xp_snd, if_pos hc]
    · rw [add_xp_fst, if_pos hc]
    · rw [add_xp_fst, if_pos hc]
      show 0 ≤ p.xp + p.level * 100 - p.level * 100
      omega
    · rw [add_xp_fst, if_pos hc]
      show p.xp + p.level * 100 - p.level * 100 < (p.level + 1) * 100
      omega

/-- Witness for claim C4 at the concrete player wPlayer (level 2, xp 150). -/
theorem claim_C4_add_xp_witness :
    (wPlayer.add_xp (wPlayer.level * 100)).2 = true ∧
    (wPlayer.add_xp (wPlayer.level * 100)).1.level = wPlayer.level + 1 ∧
    0 ≤ (wPlayer.add_xp (wPlayer.level * 100)).1.xp ∧
    (wPlayer.add_xp (wPlayer.level * 100)).1.xp <
      (wPlayer.add_xp (wPlayer.level * 100)).1.level * 100 :=
  (claim_C4_add_xp wPlayer 0).2.2 (by norm_num [wPlayer]) (by norm_num [wPlayer])

/-- Claim C2 amended: the invariant xp < level*100 is preserved by an
add_xp call exactly when the incoming xp plus the grant stays below
2*level*100 + 100; the unconditional claim is refuted by
claim_C2_counterexample. -/
theorem claim_C2_xp_invariant (p : Player) (points : Int)
    (h : p.xp + points < 2 * (p.level * 100) + 100) :
    (p.add_xp points).1.xp < (p.add_xp points).1.level * 100 := by
  rw [add_xp_fst]
  split
  · show p.xp + points - p.level * 100 < (p.level + 1) * 100
    omega
  · rename_i hc
    show p.xp + points < p.level * 100
    omega

/-- Witness for claim C2 amended at wPlayer with a grant of 10. -/
theorem claim_C2_xp_invariant_witness :
    (wPlayer.add_xp 10).1.xp < (wPlayer.add_xp 10).1.level * 100 :=
  claim_C2_xp_invariant wPlayer 10 (by norm_num [wPlayer])

/-- Claim C2 counterexample: a completion of a fresh level-1 player with a
hard prompt (time limit 30), time 0 and confidence 100 scores 300, and
right after the score add_xp call inside complete_session settles the
player has xp = 200 = level * 100, violating xp < level * 100. -/
theorem claim_C2_counterexample :
    (completeBody st30 sess30 "s2" "img" aiC2 0 7).2.score = 300 ∧
    ((statsStage pBase true 7).add_xp 300).1.xp = 200 ∧
    ((statsStage pBase true 7).add_xp 300).1.level = 2 ∧
    ¬(((statsStage pBase true 7).add_xp 300).1.xp <
      ((statsStage pBase true 7).add_xp 300).1.level * 100) := by
  have h1 : timeBonus 30 0 = 150 := by norm_num [timeBonus, ratTrunc]
  have h2 : confidenceBonus 100 = 50 := by norm_num [confidenceBonus, ratTrunc]
  refine ⟨?_, ?_, ?_, ?_⟩
  · simp only [completeBody_unfold, st30, sess30, aiC2, h1, h2]
    decide
  · decide
  · decide
  · decide

/-- Claim C6: start_session ignores the difficulty hint and computes the
difficulty from the player level: below 3 always EASY, 3 to 6 always
MEDIUM, 7 and above a coin toss between MEDIUM and HARD, never EASY; the
generated prompt uses exactly this computed difficulty. -/
theorem claim_C6_difficulty (h1 h2 : Difficulty) (level : Int) (coin : Bool)
    (st : GameState) (r : Nat) (surprise_mode : Bool) (uuidSession : String)
    (surpriseCoin : Bool) (promptIdx : Nat) (now : Int) :
    computeDifficulty h1 level coin = computeDifficulty h2 level coin ∧
    (level < 3 → computeDifficulty h1 level coin = Difficulty.easy) ∧
    (3 ≤ level → level < 7 → computeDifficulty h1 level coin = Difficulty.medium) ∧
    (7 ≤ level → (computeDifficulty h1 level coin = Difficulty.medium ∨
                  computeDifficulty h1 level coin = Difficulty.hard)) ∧
    (7 ≤ level → computeDifficulty h1 level coin ≠ Difficulty.easy) ∧
    (start_session_body st r h1 surprise_mode uuidSession coin surpriseCoin promptIdx
        now).2.prompt =
      PromptGenerator.generate (computeDifficulty h1 (st.heap r).level coin)
        surprise_mode surpriseCoin promptIdx := by
  refine ⟨rfl, ?_, ?_, ?_, ?_, rfl⟩
  · intro h
    unfold computeDifficulty
    rw [if_pos h]
  · intro h3 h7
    unfold computeDifficulty
    rw [if_neg (by omega), if_pos h7]
  · intro h7
    unfold computeDifficulty
    rw [if_neg (by omega), if_neg (by omega)]
    cases coin <;> simp
  · intro h7
    unfold computeDifficulty
    rw [if_neg (by omega), if_neg (by omega)]
    cases coin <;> simp

/-- Witness for claim C6: at level 8 with differing hints the outcome is
MEDIUM or HARD and the hint is ignored. -/
theorem claim_C6_difficulty_witness :
    computeDifficulty Difficulty.hard 8 true = computeDifficulty Difficulty.easy 8 true ∧
    (computeDifficulty Difficulty.hard 8 true = Difficulty.medium ∨
      computeDifficulty Difficulty.hard 8 true = Difficulty.hard) :=
  ⟨(claim_C6_difficulty Difficulty.hard Difficulty.easy 8 true st20 0 true "s" true 0 0).1,
   (claim_C6_difficulty Difficulty.hard Difficulty.easy 8 true st20 0 true "s" true 0
      0).2.2.2.1 (by norm_num)⟩

/-- Claim C9: the surprise branch of PromptGenerator.generate, taken only
when the flag is set and the coin fires, draws from the 9-entry surprise
pool with difficulty MEDIUM and time limit 30 regardless of the requested
difficulty; otherwise the prompt comes from the pool of the requested
difficulty with time limit 20, 25 or 30, and the pools have 13, 12, 10 and
9 entries. -/
theorem claim_C9_generate (d : Difficulty) (surprise surpriseCoin : Bool) (idx : Nat) :
    (surprise = true → surpriseCoin = true →
      (PromptGenerator.generate d surprise surpriseCoin idx).text ∈ SURPRISE_PROMPTS ∧
      (PromptGenerator.generate d surprise surpriseCoin idx).difficulty =
        Difficulty.medium ∧
      (PromptGenerator.generate d surprise surpriseCoin idx).time_limit = 30) ∧
    ((surprise && surpriseCoin) = false →
      (PromptGenerator.generate d surprise surpriseCoin idx).difficulty = d ∧
      (PromptGenerator.generate d surprise surpriseCoin idx).text ∈
        (match d with
         | Difficulty.easy => EASY_PROMPTS
         | Difficulty.medium => MEDIUM_PROMPTS
         | Difficulty.hard => HARD_PROMPTS) ∧
      (PromptGenerator.generate d surprise surpriseCoin idx).time_limit =
        (match d with
         | Difficulty.easy => 20
         | Difficulty.medium => 25
         | Difficulty.hard => 30)) ∧
    EASY_PROMPTS.length = 13 ∧ MEDIUM_PROMPTS.length = 12 ∧
    HARD_PROMPTS.length = 10 ∧ SURPRISE_PROMPTS.length = 9 := by
  refine ⟨?_, ?_, rfl, rfl, rfl, rfl⟩
  · rintro rfl rfl
    exact ⟨choice_mem _ idx (by simp [SURPRISE_PROMPTS]), rfl, rfl⟩
  · intro hb
    cases d <;> refine ⟨?_, ?_, ?_⟩ <;>
      simp only [PromptGenerator.generate, hb, Bool.false_eq_true, if_false] <;>
      first
        | trivial
        | exact choice_mem _ idx (by simp [EASY_PROMPTS, MEDIUM_PROMPTS, HARD_PROMPTS])

/-- Witness for claim C9: the surprise branch at a concrete input. -/
theorem claim_C9_generate_witness :
    (PromptGenerator.generate Difficulty.easy true true 0).text ∈ SURPRISE_PROMPTS ∧
    (PromptGenerator.generate Difficulty.easy true true 0).difficulty =
      Difficulty.medium ∧
    (PromptGenerator.generate Difficulty.easy true true 0).time_limit = 30 :=
  (claim_C9_generate Difficulty.easy true true 0).1 rfl rfl

/-- Claim C1 amended: for every complete_session body run the score is
(100 if correct else 20) plus max(0, floor((time_limit - t) * 5)) plus
floor(confidence / 2) (the code truncates the time term rather than
rounding it to nearest as the claim states), the breakdown reports exactly
these three components with their sum as score on the session and in the
result, the time bonus is 0 whenever t reaches the limit, and it has no
upper cap. -/
theorem claim_C1_score (st : GameState) (sess : DrawingSession) (sid dd : String)
    (ai : AIResult) (t : Rat) (now : Int) (hc : 0 ≤ ai.confidence) :
    (completeBody st sess sid dd ai t now).2.score =
      (completeBody st sess sid dd ai t now).2.base +
      (completeBody st sess sid dd ai t now).2.time_bonus +
      (completeBody st sess sid dd ai t now).2.confidence_bonus ∧
    (completeBody st sess sid dd ai t now).2.session.score =
      (completeBody st sess sid dd ai t now).2.score ∧
    (completeBody st sess sid dd ai t now).2.base = (if ai.correct then 100 else 20) ∧
    (completeBody st sess sid dd ai t now).2.time_bonus =
      max 0 ⌊((sess.prompt.time_limit : Rat) - t) * 5⌋ ∧
    (completeBody st sess sid dd ai t now).2.confidence_bonus =
      ⌊(ai.confidence : Rat) / 2⌋ ∧
    ((sess.prompt.time_limit : Rat) ≤ t →
      (completeBody st sess sid dd ai t now).2.time_bonus = 0) ∧
    (∀ B : Int, ∃ u : Rat, B < timeBonus sess.prompt.time_limit u) ∧
    alistLookup (completeBody st sess sid dd ai t now).1.sessions sid =
      some (completeBody st sess sid dd ai t now).2.session := by
  rw [completeBody_unfold]
  refine ⟨rfl, rfl, rfl, ?_, ?_, ?_, ?_, ?_⟩
  · exact timeBonus_eq_floor _ _
  · exact confidenceBonus_eq_floor _ hc
  · intro h
    exact timeBonus_zero_of_le _ _ h
  · intro B
    exact timeBonus_unbounded _ B
  · exact alistLookup_insert _ _ _

/-- Witness for claim C1 amended: the section 8 scenario state st20. -/
theorem claim_C1_score_witness :
    (completeBody st20 sess20 "s1" "img" aiW 3 7).2.score =
      (completeBody st20 sess20 "s1" "img" aiW 3 7).2.base +
      (completeBody st20 sess20 "s1" "img" aiW 3 7).2.time_bonus +
      (completeBody st20 sess20 "s1" "img" aiW 3 7).2.confidence_bonus :=
  (claim_C1_score st20 sess20 "s1" "img" aiW 3 7 (by norm_num [aiW])).1

/-- Claim C1 counterexample: with time limit 20, time spent 13/4 (the
float 3.25, exactly representable) and confidence 0 on a correct drawing,
the code computes score 183 (int() truncation of 83.75), while the claimed
formula with round((L - t) * 5) gives 184. -/
theorem claim_C1_counterexample :
    complete_session st20 "s1" "img" aiC1 (13 / 4) 99 =
      Except.ok (completeBody st20 sess20 "s1" "img" aiC1 (13 / 4) 99) ∧
    (completeBody st20 sess20 "s1" "img" aiC1 (13 / 4) 99).2.score = 183 ∧
    (if aiC1.correct then (100 : Int) else 20) +
        max 0 (pyRound (((20 : Rat) - 13 / 4) * 5)) +
        ⌊(aiC1.confidence : Rat) / 2⌋ = 184 ∧
    (183 : Int) ≠ 184 := by
  have h1 : timeBonus 20 (13 / 4) = 83 := by norm_num [timeBonus, ratTrunc]
  have h2 : confidenceBonus 0 = 0 := by norm_num [confidenceBonus, ratTrunc]
  refine ⟨?_, ?_, ?_, by decide⟩
  · norm_num [complete_session, alistLookup, st20, sess20]
  · simp only [completeBody_unfold, st20, sess20, aiC1, h1, h2]
    decide
  · have h3 : pyRound (((20 : Rat) - 13 / 4) * 5) = 84 := by
      norm_num [pyRound, round_eq]
    simp only [aiC1, h3]
    norm_num

/-- Claim C7: every completion increments total_drawings by exactly 1 and
stamps last_played with the completion time; a correct result increments
correct_guesses and streak by exactly 1, an incorrect one resets streak to
0 and leaves correct_guesses unchanged. -/
theorem claim_C7_stats (st : GameState) (sess : DrawingSession) (sid dd : String)
    (ai : AIResult) (t : Rat) (now : Int) :
    ((completeBody st sess sid dd ai t now).1.heap sess.playerRef).total_drawings =
      (st.heap sess.playerRef).total_drawings + 1 ∧
    ((completeBody st sess sid dd ai t now).1.heap sess.playerRef).last_played =
      some now ∧
    ((completeBody st sess sid dd ai t now).1.heap sess.playerRef).correct_guesses =
      (st.heap sess.playerRef).correct_guesses + (if ai.correct then 1 else 0) ∧
    ((completeBody st sess sid dd ai t now).1.heap sess.playerRef).streak =
      (if ai.correct then (st.heap sess.playerRef).streak + 1 else 0) :=
  ⟨completeBody_heap_total_drawings st sess sid dd ai t now,
   completeBody_heap_last_played st sess sid dd ai t now,
   completeBody_heap_correct_guesses st sess sid dd ai t now,
   completeBody_heap_streak st sess sid dd ai t now⟩

/-- Claim C5: check_achievements returns exactly the ids among first_draw,
speed_demon, perfectionist, level_10 and abstract_master whose condition
holds and which the player had not unlocked yet, recording them on the
player; night_owl is never returned; the achievement xp bonuses are
50/100/200/500/150; and in the section 8 scenario complete_session grants
the two unlocked bonuses through one add_xp call each, taking the fresh
player from level 1 to level 3 with xp 75 after a score of 225. -/
theorem mem_check_first (p : Player) (s : DrawingSession) :
    "first_draw" ∈ (check_achievements p s).2 ↔
      (p.total_drawings = 1 ∧ "first_draw" ∉ p.achievements) := by
  rw [check_achievements_eq]
  show "first_draw" ∈ newAch p s ↔ _
  simp only [newAch, List.mem_append, mem_ite_singleton]
  simp <;> tauto

theorem mem_check_speed (p : Player) (s : DrawingSession) :
    "speed_demon" ∈ (check_achievements p s).2 ↔
      (s.time_spent < 5 ∧ s.correct = true ∧ "speed_demon" ∉ p.achievements) := by
  rw [check_achievements_eq]
  show "speed_demon" ∈ newAch p s ↔ _
  simp only [newAch, List.mem_append, mem_ite_singleton]
  simp <;> tauto

theorem mem_check_perfect (p : Player) (s : DrawingSession) :
    "perfectionist" ∈ (check_achievements p s).2 ↔
      (10 ≤ p.streak ∧ "perfectionist" ∉ p.achievements) := by
  rw [check_achievements_eq]
  show "perfectionist" ∈ newAch p s ↔ _
  simp only [newAch, List.mem_append, mem_ite_singleton]
  simp <;> tauto

theorem mem_check_level10 (p : Player) (s : DrawingSession) :
    "level_10" ∈ (check_achievements p s).2 ↔
      (10 ≤ p.level ∧ "level_10" ∉ p.achievements) := by
  rw [check_achievements_eq]
  show "level_10" ∈ newAch p s ↔ _
  simp only [newAch, List.mem_append, mem_ite_singleton]
  simp <;> tauto

theorem mem_check_abstract (p : Player) (s : DrawingSession) :
    "abstract_master" ∈ (check_achievements p s).2 ↔
      ("abstract_master" ∉ p.achievements ∧
        5 ≤ p.total_drawings - p.correct_guesses) := by
  rw [check_achievements_eq]
  show "abstract_master" ∈ newAch p s ↔ _
  simp only [newAch, List.mem_append, mem_ite_singleton]
  simp <;> tauto

theorem mem_check_only (p : Player) (s : DrawingSession) (a : String)
    (h : a ∈ (check_achievements p s).2) :
    a = "first_draw" ∨ a = "speed_demon" ∨ a = "perfectionist" ∨ a = "level_10" ∨
      a = "abstract_master" := by
  rw [check_achievements_eq] at h
  simp only [newAch, List.mem_append, mem_ite_singleton] at h
  tauto

/-- Claim C5: check_achievements returns exactly the ids among first_draw,
speed_demon, perfectionist, level_10 and abstract_master whose condition
holds and which the player had not unlocked yet, recording them on the
player; night_owl is never returned; the achievement xp bonuses are
50/100/200/500/150; and in the section 8 scenario complete_session grants
the two unlocked bonuses through one add_xp call each, taking the fresh
player from level 1 to level 3 with xp 75 after a score of 225. -/
theorem claim_C5_achievements :
    (∀ (p : Player) (s : DrawingSession) (a : String),
      a ∈ (check_achievements p s).2 ↔
        (a ∉ p.achievements ∧
          ((a = "first_draw" ∧ p.total_drawings = 1) ∨
           (a = "speed_demon" ∧ s.time_spent < 5 ∧ s.correct = true) ∨
           (a = "perfectionist" ∧ 10 ≤ p.streak) ∨
           (a = "level_10" ∧ 10 ≤ p.level) ∨
           (a = "abstract_master" ∧ 5 ≤ p.total_drawings - p.correct_guesses)))) ∧
    (∀ (p : Player) (s : DrawingSession),
      (check_achievements p s).1.achievements =
        p.achievements ++ (check_achievements p s).2) ∧
    (∀ (p : Player) (s : DrawingSession), "night_owl" ∉ (check_achievements p s).2) ∧
    (ACHIEVEMENTS "first_draw").xp = 50 ∧ (ACHIEVEMENTS "speed_demon").xp = 100 ∧
    (ACHIEVEMENTS "perfectionist").xp = 200 ∧ (ACHIEVEMENTS "level_10").xp = 500 ∧
    (ACHIEVEMENTS "abstract_master").xp = 150 ∧
    (completeBody st20 sess20 "s1" "img" aiW 3 7).2.score = 225 ∧
    (completeBody st20 sess20 "s1" "img" aiW 3 7).2.achievements =
      ["first_draw", "speed_demon"] ∧
    (completeBody st20 sess20 "s1" "img" aiW 3 7).1.heap 0 =
      { id := "p1", name := "Ana", level := 3, xp := 75, streak := 1,
        total_drawings := 1, correct_guesses := 1,
        brushes_unlocked := [BrushType.normal],
        achievements := ["first_draw", "speed_demon"], last_played := some 7 } ∧
    (completeBody st20 sess20 "s1" "img" aiW 3 7).2.new_level = some 3 := by
  have hsc : ∀ (p : Player) (s : DrawingSession) (a : String),
      a ∈ (check_achievements p s).2 ↔
        (a ∉ p.achievements ∧
          ((a = "first_draw" ∧ p.total_drawings = 1) ∨
           (a = "speed_demon" ∧ s.time_spent < 5 ∧ s.correct = true) ∨
           (a = "perfectionist" ∧ 10 ≤ p.streak) ∨
           (a = "level_10" ∧ 10 ≤ p.level) ∨
           (a = "abstract_master" ∧ 5 ≤ p.total_drawings - p.correct_guesses))) := by
    intro p s a
    by_cases e1 : a = "first_draw"
    · subst e1
      rw [mem_check_first]
      simp <;> tauto
    · by_cases e2 : a = "speed_demon"
      · subst e2
        rw [mem_check_speed]
        simp <;> tauto
      · by_cases e3 : a = "perfectionist"
        · subst e3
          rw [mem_check_perfect]
          simp <;> tauto
        · by_cases e4 : a = "level_10"
          · subst e4
            rw [mem_check_level10]
            simp <;> tauto
          · by_cases e5 : a = "abstract_master"
            · subst e5
              rw [mem_check_abstract]
              simp <;> tauto
            · constructor
              · intro h
                rcases mem_check_only p s a h with rfl | rfl | rfl | rfl | rfl <;>
                  simp_all
              · rintro ⟨hna, (⟨rfl, hx⟩ | ⟨rfl, hx⟩ | ⟨rfl, hx⟩ | ⟨rfl, hx⟩ | ⟨rfl, hx⟩)⟩ <;>
                  simp_all
  have h1 : timeBonus 20 3 = 85 := by norm_num [timeBonus, ratTrunc]
  have h2 : confidenceBonus 80 = 40 := by norm_num [confidenceBonus, ratTrunc]
  refine ⟨hsc, ?_, ?_, rfl, rfl, rfl, rfl, rfl, ?_, ?_, ?_, ?_⟩
  · intro p s
    rw [check_achievements_eq]
  · intro p s
    rw [check_achievements_eq]
    show "night_owl" ∉ newAch p s
    simp [newAch, mem_ite_singleton]
  · simp only [completeBody_unfold, st20, sess20, aiW, h1, h2]
    decide
  · simp only [completeBody_unfold, st20, sess20, aiW, h1, h2]
    decide
  · simp only [completeBody_unfold, st20, sess20, aiW, h1, h2]
    decide
  · simp only [completeBody_unfold, st20, sess20, aiW, h1, h2]
    decide

/-- Claim C8: get_leaderboard returns the player objects in a stable
descending sort by (level, correct_guesses), truncated to the first limit
entries, with consecutive 1-based ranks; each row accuracy is
correct_guesses / total_drawings * 100 rounded to one decimal when
total_drawings is positive and 0 otherwise, and (given the data model
invariant that correct guesses never exceed total drawings) accuracy always
lies between 0 and 100. -/
theorem claim_C8_leaderboard (st : GameState) (limit : Nat)
    (h : ∀ p, p ∈ playersValues st →
      0 ≤ p.correct_guesses ∧ p.correct_guesses ≤ p.total_drawings) :
    (List.insertionSort keyGe (playersValues st)).Perm (playersValues st) ∧
    (List.insertionSort keyGe (playersValues st)).Sorted keyGe ∧
    (get_leaderboard st limit).length = min limit (playersValues st).length ∧
    (∀ i : Nat, (get_leaderboard st limit)[i]? =
      ((List.insertionSort keyGe (playersValues st)).take limit)[i]?.map
        (fun p => mkEntry (1 + i) p)) ∧
    (∀ i : Nat, ∀ e : LBEntry, (get_leaderboard st limit)[i]? = some e →
      e.rank = i + 1) ∧
    (∀ e, e ∈ get_leaderboard st limit → 0 ≤ e.accuracy ∧ e.accuracy ≤ 100) ∧
    (∀ p : Player, p.total_drawings = 0 → accuracyOf p = 0) ∧
    (∀ p : Player, 0 < p.total_drawings →
      accuracyOf p =
        roundTo1 ((p.correct_guesses : Rat) / (p.total_drawings : Rat) * 100)) := by
  refine ⟨List.perm_insertionSort keyGe _, List.sorted_insertionSort keyGe _, ?_, ?_, ?_,
    ?_, ?_, ?_⟩
  · unfold get_leaderboard
    rw [lbEntries_length, List.length_take,
      (List.perm_insertionSort keyGe (playersValues st)).length_eq]
  · intro i
    unfold get_leaderboard
    exact lbEntries_getElem? _ 1 i
  · intro i e he
    unfold get_leaderboard at he
    rw [lbEntries_getElem? _ 1 i] at he
    cases hx : ((List.insertionSort keyGe (playersValues st)).take limit)[i]? with
    | none =>
        rw [hx] at he
        exact absurd he (by simp)
    | some p =>
        rw [hx] at he
        have he2 : some (mkEntry (1 + i) p) = some e := he
        injection he2 with he3
        rw [← he3]
        show 1 + i = i + 1
        omega
  · intro e he
    unfold get_leaderboard at he
    rcases lbEntries_mem _ _ _ he with ⟨p, hp, k, rfl⟩
    have hp2 : p ∈ List.insertionSort keyGe (playersValues st) :=
      List.mem_of_mem_take hp
    have hp3 : p ∈ playersValues st :=
      ((List.perm_insertionSort keyGe (playersValues st)).mem_iff).mp hp2
    have hb := accuracyOf_bounds p (h p hp3).1 (h p hp3).2
    exact hb
  · intro p hp
    exact accuracyOf_zero p hp
  · intro p hp
    unfold accuracyOf
    rw [if_pos hp]

/-- Witness for claim C8 on the concrete one-player state st20. -/
theorem claim_C8_leaderboard_witness :
    (get_leaderboard st20 10).length = min 10 (playersValues st20).length :=
  (claim_C8_leaderboard st20 10
    (by
      intro p hp
      simp only [playersValues, st20, List.map_cons, List.map_nil,
        List.mem_singleton] at hp
      subst hp
      exact ⟨le_refl 0, le_refl 0⟩)).2.2.1

/-- Claim C3: the model raises exactly when the session id is unknown, but
re-completion is NOT rejected: completing session s1 a second time succeeds
again (Except.ok, not an error) and re-scores the player, whose
total_drawings reaches 2 from a single session. -/
theorem claim_C3_recompletion :
    (∀ (st : GameState) (sid dd : String) (ai : AIResult) (t : Rat) (now : Int),
      complete_session st sid dd ai t now = Except.error "Sessão não encontrada" ↔
        alistLookup st.sessions sid = none) ∧
    complete_session st20 "missing" "d" aiC3 10 100 =
      Except.error "Sessão não encontrada" ∧
    complete_session st20 "s1" "d1" aiC3 10 100 =
      Except.ok (completeBody st20 sess20 "s1" "d1" aiC3 10 100) ∧
    (completeBody st20 sess20 "s1" "d1" aiC3 10 100).1.sessions =
      [("s1", sess20done)] ∧
    complete_session (completeBody st20 sess20 "s1" "d1" aiC3 10 100).1 "s1" "d2"
        aiC3 10 101 =
      Except.ok (completeBody (completeBody st20 sess20 "s1" "d1" aiC3 10 100).1
        sess20done "s1" "d2" aiC3 10 101) ∧
    ((completeBody (completeBody st20 sess20 "s1" "d1" aiC3 10 100).1 sess20done "s1"
        "d2" aiC3 10 101).1.heap 0).total_drawings = 2 ∧
    (completeBody (completeBody st20 sess20 "s1" "d1" aiC3 10 100).1 sess20done "s1"
        "d2" aiC3 10 101).2.score = 190 := by
  have h1 : timeBonus 20 10 = 50 := by norm_num [timeBonus, ratTrunc]
  have h2 : confidenceBonus 80 = 40 := by norm_num [confidenceBonus, ratTrunc]
  have hd : (completeBody st20 sess20 "s1" "d1" aiC3 10 100).1.sessions =
      [("s1", sess20done)] := by
    simp only [completeBody_unfold, st20, sess20, aiC3, h1, h2]
    decide
  have hl : alistLookup (completeBody st20 sess20 "s1" "d1" aiC3 10 100).1.sessions
      "s1" = some sess20done := by
    rw [hd]
    decide
  refine ⟨?_, ?_, ?_, hd, ?_, ?_, ?_⟩
  · intro st sid dd ai t now
    exact complete_session_error_iff st sid dd ai t now
  · simp [complete_session, alistLookup, st20]
  · norm_num [complete_session, alistLookup, st20]
  · simp only [complete_session, hl]
  · show ((completeBody (completeBody st20 sess20 "s1" "d1" aiC3 10 100).1 sess20done
        "s1" "d2" aiC3 10 101).1.heap sess20done.playerRef).total_drawings = 2
    rw [completeBody_heap_total_drawings]
    show ((completeBody st20 sess20 "s1" "d1" aiC3 10 100).1.heap
        sess20.playerRef).total_drawings + 1 = 2
    rw [completeBody_heap_total_drawings]
    norm_num [st20, pBase]
  · simp only [completeBody_unfold, sess20done, sess20, aiC3, h1, h2]
    decide

/-- Claim C10: the auto-creating start_session on an unknown player id
stores the single created Player object under both the fresh uuid key and
the caller id (after mutating its id field), so the players map holds two
distinct keys for one object and get_leaderboard ranks that player twice. -/
theorem claim_C10_alias (pid uuidNew uuidSession : String) (d : Difficulty)
    (surprise diffCoin surpriseCoin : Bool) (idx : Nat) (now : Int)
    (hne : pid ≠ uuidNew) :
    (c10state pid uuidNew uuidSession d surprise diffCoin surpriseCoin idx
        now).players = [(uuidNew, 0), (pid, 0)] ∧
    (c10state pid uuidNew uuidSession d surprise diffCoin surpriseCoin idx
        now).heap 0 =
      { id := pid, name := "Player_" ++ pid, last_played := some now } ∧
    playersValues (c10state pid uuidNew uuidSession d surprise diffCoin surpriseCoin
        idx now) =
      [(c10state pid uuidNew uuidSession d surprise diffCoin surpriseCoin idx
          now).heap 0,
       (c10state pid uuidNew uuidSession d surprise diffCoin surpriseCoin idx
          now).heap 0] ∧
    get_leaderboard (c10state pid uuidNew uuidSession d surprise diffCoin surpriseCoin
        idx now) 10 =
      [mkEntry 1 ((c10state pid uuidNew uuidSession d surprise diffCoin surpriseCoin
          idx now).heap 0),
       mkEntry 2 ((c10state pid uuidNew uuidSession d surprise diffCoin surpriseCoin
          idx now).heap 0)] := by
  have hplayers : (c10state pid uuidNew uuidSession d surprise diffCoin surpriseCoin
      idx now).players = [(uuidNew, 0), (pid, 0)] := by
    simp only [c10state, start_session, emptyState, alistLookup, start_session_body,
      alistInsert]
    simp [Ne.symm hne]
  have hheap : (c10state pid uuidNew uuidSession d surprise diffCoin surpriseCoin idx
      now).heap 0 = { id := pid, name := "Player_" ++ pid, last_played := some now } := by
    simp only [c10state, start_session, emptyState, alistLookup, start_session_body]
    simp [updateHeap]
  have hvalues : playersValues (c10state pid uuidNew uuidSession d surprise diffCoin
      surpriseCoin idx now) =
      [(c10state pid uuidNew uuidSession d surprise diffCoin surpriseCoin idx
          now).heap 0,
       (c10state pid uuidNew uuidSession d surprise diffCoin surpriseCoin idx
          now).heap 0] := by
    unfold playersValues
    rw [hplayers]
    rfl
  have hK : keyGe ((c10state pid uuidNew uuidSession d surprise diffCoin surpriseCoin
      idx now).heap 0) ((c10state pid uuidNew uuidSession d surprise diffCoin
      surpriseCoin idx now).heap 0) := Or.inr ⟨rfl, le_refl _⟩
  refine ⟨hplayers, hheap, hvalues, ?_⟩
  unfold get_leaderboard
  rw [hvalues]
  simp only [List.insertionSort, List.orderedInsert, if_pos hK, List.take, lbEntries]

/-- Witness for claim C10 at concrete ids. -/
theorem claim_C10_alias_witness :
    (c10state "alice" "u-1" "s-1" Difficulty.medium true false false 0 5).players =
      [("u-1", 0), ("alice", 0)] :=
  (claim_C10_alias "alice" "u-1" "s-1" Difficulty.medium true false false 0 5
    (by decide)).1

end Inkly
